import Mathlib

/-
Verification development for the Python debugger daemon
(src/scripts/debugger.py and
src/plugins/python-debugger/skills/python-debugging/scripts/inspector.py).

The embedding models Python values as nodes of an explicit heap (object
identities are heap indices, so reference cycles are representable), JSON
responses as a small JSON value type, and the daemon as a state record with
the command handlers as state transformers.  Machine-level concerns the
source never exercises (large integers, float arithmetic) are kept abstract:
floats carry their textual rendering plus the isinf/isnan flags the code
inspects, and the textual form of repr() is modelled as quoting without
escape handling, which no claim depends on.
-/

-- ==========================================================================
-- JSON values (the structured records every component produces)
-- ==========================================================================

/-- A JSON-like value: the shape of every request and response record. -/
inductive JVal where
  | s (v : String)
  | n (v : Int)
  | b (v : Bool)
  | arr (items : List JVal)
  | obj (fields : List (String × JVal))

/-- A record is an ordered list of (key, value) fields, as a Python dict. -/
abbrev Record := List (String × JVal)

/-- Field lookup in a record (first match wins, as in a Python dict where
keys are unique). -/
def getField (r : Record) (k : String) : Option JVal :=
  match r with
  | [] => Option.none
  | p :: rest => if p.1 = k then some p.2 else getField rest k

-- ==========================================================================
-- Python values: an explicit heap with object identities
-- ==========================================================================

/-- A Python runtime value.  Collections hold heap ids of their elements so
that cyclic object graphs are representable.  Dict keys are modelled by
their textual rendering (both formatters only ever use str(key)/repr(key)).
The obj constructor covers every remaining object: its type name, module,
repr() outcome (Option.none when repr raises), whether it exposes
a field dictionary or slots, its public data attributes (as heap ids, in
the order the field dictionary and slots list them), the callable public
names dir() yields, and len() when the object exposes it.  Callables and
complex numbers never appear as heap nodes; no claim concerns them. -/
inductive PyVal where
  | none
  | bool (b : Bool)
  | int (n : Int)
  | float (render : String) (isInf isNan : Bool)
  | str (s : String)
  | bytes (s : String)
  | list (elems : List Nat)
  | tuple (elems : List Nat)
  | dict (entries : List (String × Nat))
  | set (elems : List Nat)
  | obj (ty mod : String) (reprRes : Option String) (hasDictOrSlots : Bool)
        (attrs : List (String × Nat)) (methods : List String)
        (lenVal : Option Nat)

/-- type(obj).__name__ for each modelled value. -/
def pyTypeName : PyVal → String
  | PyVal.none => ("NoneType")
  | PyVal.bool _ => ("bool")
  | PyVal.int _ => ("int")
  | PyVal.float _ _ _ => ("float")
  | PyVal.str _ => ("str")
  | PyVal.bytes _ => ("bytes")
  | PyVal.list _ => ("list")
  | PyVal.tuple _ => ("tuple")
  | PyVal.dict _ => ("dict")
  | PyVal.set _ => ("set")
  | PyVal.obj ty _ _ _ _ _ _ => ty

/-- str(True) and str(False). -/
def pyBoolStr : Bool → String
  | true => ("True")
  | false => ("False")

/-- The single-quote character Python repr() uses around strings. -/
def pyReprQuote : String := String.singleton (Char.ofNat 39)

/-- repr() of a string, modelled as quoting (escapes not modelled; no claim
depends on the quoted text). -/
def pyReprStr (s : String) : String := pyReprQuote ++ s ++ pyReprQuote

/-- repr() of a bytes value. -/
def reprBytes (s : String) : String := ("b") ++ pyReprQuote ++ s ++ pyReprQuote

-- ==========================================================================
-- Constants (src/scripts/debugger.py lines 30-34, inspector.py lines 17-21)
-- ==========================================================================

def MAX_VALUE_LENGTH : Nat := 1000
def MAX_COLLECTION_ITEMS : Nat := 50
def MAX_STACK_DEPTH : Nat := 50
def MAX_STRING_LENGTH : Nat := 200
def MAX_DEPTH : Nat := 10

/-- truncate_value from debugger.py lines 41-45 (identical to truncate in
inspector.py lines 24-28): cut to max_length - 3 characters plus an
ellipsis when over budget. -/
def truncate_value (value : String) (max_length : Nat) : String :=
  if value.length > max_length then (value.take (max_length - 3)) ++ ("...")
  else value

-- ==========================================================================
-- format_value (debugger.py lines 48-143)
-- ==========================================================================

/-- The ellipsis record appended when a collection exceeds
MAX_COLLECTION_ITEMS items (debugger.py lines 88-89). -/
def ellipsisItems (more : Nat) : Record :=
  [(("type"), JVal.s ("...")),
   (("value"), JVal.s (("... (") ++ toString more ++ (" more items)")))]

/-- The ellipsis entry for an over-budget dict (debugger.py line 106). -/
def ellipsisKeys (more : Nat) : Record :=
  [(("type"), JVal.s ("...")),
   (("value"), JVal.s (("... (") ++ toString more ++ (" more keys)")))]

/-- The value string for list, tuple and set summaries. -/
def seqSummary (ty : String) (n : Nat) : String :=
  ("<") ++ ty ++ (" with ") ++ toString n ++ (" items>")

/-- The value string for dict summaries. -/
def dictSummary (n : Nat) : String :=
  ("<dict with ") ++ toString n ++ (" keys>")

/-- The circular-reference record of format_value (debugger.py lines
58-59): type and value only, no circular flag. -/
def circularRecord (v : PyVal) : Record :=
  [(("type"), JVal.s (pyTypeName v)),
   (("value"), JVal.s ("<circular reference>"))]

/-- Value dispatch of format_value when the depth budget is exhausted
(current_depth >= max_depth): collections are summarized without items
(debugger.py lines 83-84, 100-101, 118-119); every other branch is
depth-independent. -/
def formatValueCapped : PyVal → Record
  | PyVal.none =>
    [(("type"), JVal.s ("NoneType")), (("value"), JVal.s ("None"))]
  | PyVal.bool b =>
    [(("type"), JVal.s ("bool")), (("value"), JVal.s (pyBoolStr b))]
  | PyVal.int n =>
    [(("type"), JVal.s ("int")), (("value"), JVal.s (toString n))]
  | PyVal.float render _ _ =>
    [(("type"), JVal.s ("float")), (("value"), JVal.s render)]
  | PyVal.str s =>
    [(("type"), JVal.s ("str")),
     (("value"), JVal.s (truncate_value (pyReprStr s) MAX_VALUE_LENGTH))]
  | PyVal.bytes s =>
    [(("type"), JVal.s ("bytes")),
     (("value"), JVal.s (truncate_value (reprBytes s) MAX_VALUE_LENGTH))]
  | PyVal.list elems =>
    [(("type"), JVal.s ("list")),
     (("value"), JVal.s (seqSummary ("list") elems.length))]
  | PyVal.tuple elems =>
    [(("type"), JVal.s ("tuple")),
     (("value"), JVal.s (seqSummary ("tuple") elems.length))]
  | PyVal.dict entries =>
    [(("type"), JVal.s ("dict")),
     (("value"), JVal.s (dictSummary entries.length))]
  | PyVal.set elems =>
    [(("type"), JVal.s ("set")),
     (("value"), JVal.s (seqSummary ("set") elems.length))]
  | PyVal.obj ty _ reprRes _ _ _ _ =>
    [(("type"), JVal.s ty),
     (("value"), JVal.s (match reprRes with
       | some s => truncate_value s MAX_VALUE_LENGTH
       | Option.none => ("<") ++ ty ++ (" object>")))]

/-- Value dispatch of format_value within the depth budget (debugger.py
lines 61-140); fmt formats a child heap id at current_depth + 1 with the
extended seen set.  Collections enumerate up to MAX_COLLECTION_ITEMS
elements, then append the ellipsis record. -/
def formatValueFull (fmt : Nat → Record) : PyVal → Record
  | PyVal.none =>
    [(("type"), JVal.s ("NoneType")), (("value"), JVal.s ("None"))]
  | PyVal.bool b =>
    [(("type"), JVal.s ("bool")), (("value"), JVal.s (pyBoolStr b))]
  | PyVal.int n =>
    [(("type"), JVal.s ("int")), (("value"), JVal.s (toString n))]
  | PyVal.float render _ _ =>
    [(("type"), JVal.s ("float")), (("value"), JVal.s render)]
  | PyVal.str s =>
    [(("type"), JVal.s ("str")),
     (("value"), JVal.s (truncate_value (pyReprStr s) MAX_VALUE_LENGTH))]
  | PyVal.bytes s =>
    [(("type"), JVal.s ("bytes")),
     (("value"), JVal.s (truncate_value (reprBytes s) MAX_VALUE_LENGTH))]
  | PyVal.list elems =>
    [(("type"), JVal.s ("list")),
     (("value"), JVal.s (seqSummary ("list") elems.length)),
     (("items"), JVal.arr
       (((elems.take MAX_COLLECTION_ITEMS).map (fun e => JVal.obj (fmt e))) ++
        (if elems.length > MAX_COLLECTION_ITEMS then
          [JVal.obj (ellipsisItems (elems.length - MAX_COLLECTION_ITEMS))]
         else [])))]
  | PyVal.tuple elems =>
    [(("type"), JVal.s ("tuple")),
     (("value"), JVal.s (seqSummary ("tuple") elems.length)),
     (("items"), JVal.arr
       (((elems.take MAX_COLLECTION_ITEMS).map (fun e => JVal.obj (fmt e))) ++
        (if elems.length > MAX_COLLECTION_ITEMS then
          [JVal.obj (ellipsisItems (elems.length - MAX_COLLECTION_ITEMS))]
         else [])))]
  | PyVal.dict entries =>
    [(("type"), JVal.s ("dict")),
     (("value"), JVal.s (dictSummary entries.length)),
     (("items"), JVal.obj
       (((entries.take MAX_COLLECTION_ITEMS).map
           (fun p => (truncate_value p.1 100, JVal.obj (fmt p.2)))) ++
        (if entries.length > MAX_COLLECTION_ITEMS then
          [(("..."), JVal.obj (ellipsisKeys (entries.length - MAX_COLLECTION_ITEMS)))]
         else [])))]
  | PyVal.set elems =>
    [(("type"), JVal.s ("set")),
     (("value"), JVal.s (seqSummary ("set") elems.length)),
     (("items"), JVal.arr
       (((elems.take MAX_COLLECTION_ITEMS).map (fun e => JVal.obj (fmt e))) ++
        (if elems.length > MAX_COLLECTION_ITEMS then
          [JVal.obj (ellipsisItems (elems.length - MAX_COLLECTION_ITEMS))]
         else [])))]
  | PyVal.obj ty _ reprRes _ _ _ _ =>
    [(("type"), JVal.s ty),
     (("value"), JVal.s (match reprRes with
       | some s => truncate_value s MAX_VALUE_LENGTH
       | Option.none => ("<") ++ ty ++ (" object>")))]

/-- Core of format_value (debugger.py lines 48-143), with the recursion
restated on the remaining depth budget: the source recurses with
current_depth + 1 and cuts collections off once current_depth reaches
max_depth, so budget stands for max_depth - current_depth and the cutoff
test current_depth >= max_depth, checked inside each collection branch,
becomes the budget-0 dispatch.  The circular check obj_id in seen and
current_depth > 0 runs first in both cases; the source mutates the seen
set with add before recursing, hands each child seen.copy(), and discards
in a finally block, which functionally is the objId :: seen argument with
the discard a no-op on the local copy. -/
def formatValueB (heap : Nat → PyVal) :
    Nat → Nat → Nat → List Nat → Record
  | 0, objId, curd, seen =>
    if seen.contains objId && decide (0 < curd) then
      circularRecord (heap objId)
    else formatValueCapped (heap objId)
  | budget + 1, objId, curd, seen =>
    if seen.contains objId && decide (0 < curd) then
      circularRecord (heap objId)
    else
      formatValueFull
        (fun e => formatValueB heap budget e (curd + 1) (objId :: seen))
        (heap objId)

/-- format_value(obj, max_depth, current_depth, seen) with the source
argument order (debugger.py line 48); the remaining budget is
max_depth - current_depth. -/
def format_value (heap : Nat → PyVal) (objId : Nat)
    (max_depth current_depth : Nat) (seen : List Nat) : Record :=
  formatValueB heap (max_depth - current_depth) objId current_depth seen

example :
    format_value (fun i => if i = 0 then PyVal.list [1] else PyVal.int 7) 0 2 0 []
      = [(("type"), JVal.s ("list")),
         (("value"), JVal.s ("<list with 1 items>")),
         (("items"), JVal.arr [JVal.obj
           [(("type"), JVal.s ("int")), (("value"), JVal.s ("7"))]])] := rfl

-- ==========================================================================
-- ObjectInspector.inspect (inspector.py lines 31-496)
-- ==========================================================================

/-- The circular-reference record of the inspector (inspector.py lines
56-61), which carries circular: true. -/
def circularRecordTr (v : PyVal) : Record :=
  [(("type"), JVal.s (pyTypeName v)),
   (("value"), JVal.s ("<circular reference>")),
   (("circular"), JVal.b true)]

/-- The over-budget ellipsis record of the inspector, which additionally
carries truncated: true (inspector.py lines 183-189). -/
def ellipsisItemsTr (more : Nat) : Record :=
  ellipsisItems more ++ [(("truncated"), JVal.b true)]

/-- The over-budget dict entry of the inspector (inspector.py lines
213-219). -/
def ellipsisKeysTr (more : Nat) : Record :=
  ellipsisKeys more ++ [(("truncated"), JVal.b true)]

/-- The depth-limit record of the inspector (inspector.py lines 64-69). -/
def depthExceededRecord (md : Nat) (v : PyVal) : Record :=
  [(("type"), JVal.s (pyTypeName v)),
   (("value"), JVal.s (("<max depth ") ++ toString md ++ (" exceeded>"))),
   (("truncated"), JVal.b true)]

/-- _is_dataframe (inspector.py lines 259-262). -/
def is_dataframe (ty mod : String) : Bool :=
  ty == ("DataFrame") && mod.startsWith ("pandas")

/-- _is_series (inspector.py lines 264-267). -/
def is_series (ty mod : String) : Bool :=
  ty == ("Series") && mod.startsWith ("pandas")

/-- _is_ndarray (inspector.py lines 269-272). -/
def is_ndarray (ty mod : String) : Bool :=
  ty == ("ndarray") && mod == ("numpy")

/-- _inspect_dataframe (inspector.py lines 274-330), reduced to its record
header.  The remaining fields (shape, per-column info, index, memory use,
preview) read pandas internals that lie outside the modelled heap; in the
source they are flat scalar and string data produced without any recursive
inspect() call, so omitting them preserves every structural property the
claims use (no nested records, no items or attributes fields). -/
def inspect_dataframe_header : Record :=
  [(("type"), JVal.s ("DataFrame")), (("module"), JVal.s ("pandas"))]

/-- _inspect_series (inspector.py lines 332-368), header only; same
reduction as inspect_dataframe_header. -/
def inspect_series_header : Record :=
  [(("type"), JVal.s ("Series")), (("module"), JVal.s ("pandas"))]

/-- _inspect_ndarray (inspector.py lines 370-408), header only; same
reduction as inspect_dataframe_header. -/
def inspect_ndarray_header : Record :=
  [(("type"), JVal.s ("ndarray")), (("module"), JVal.s ("numpy"))]

/-- _inspect_sequence (inspector.py lines 167-196), shared by list and
tuple; ins inspects a child heap id at depth + 1. -/
def inspectSeq (ty : String) (max_items : Nat) (ins : Nat → Record)
    (elems : List Nat) : Record :=
  [(("type"), JVal.s ty),
   (("length"), JVal.n (Int.ofNat elems.length)),
   (("value"), JVal.s (seqSummary ty elems.length))] ++
    (if elems.length = 0 then [(("items"), JVal.arr [])]
     else
      [(("items"), JVal.arr
        (((elems.take max_items).map (fun e => JVal.obj (ins e))) ++
         (if elems.length > max_items then
           [JVal.obj (ellipsisItemsTr (elems.length - max_items))]
          else [])))] ++
        (if elems.length > max_items then [(("truncated"), JVal.b true)]
         else []))

/-- _inspect_dict (inspector.py lines 198-228). -/
def inspectDict (max_items : Nat) (ins : Nat → Record)
    (entries : List (String × Nat)) : Record :=
  [(("type"), JVal.s ("dict")),
   (("length"), JVal.n (Int.ofNat entries.length)),
   (("value"), JVal.s (dictSummary entries.length))] ++
    (if entries.length = 0 then [(("items"), JVal.obj [])]
     else
      [(("items"), JVal.obj
        (((entries.take max_items).map
            (fun p => (truncate_value p.1 100, JVal.obj (ins p.2)))) ++
         (if entries.length > max_items then
           [(("..."), JVal.obj (ellipsisKeysTr (entries.length - max_items)))]
          else [])))] ++
        (if entries.length > max_items then [(("truncated"), JVal.b true)]
         else []))

/-- _inspect_set (inspector.py lines 230-257). -/
def inspectSet (max_items : Nat) (ins : Nat → Record) (elems : List Nat) :
    Record :=
  [(("type"), JVal.s ("set")),
   (("length"), JVal.n (Int.ofNat elems.length)),
   (("value"), JVal.s (seqSummary ("set") elems.length))] ++
    (if elems.length = 0 then [(("items"), JVal.arr [])]
     else
      [(("items"), JVal.arr
        (((elems.take max_items).map (fun e => JVal.obj (ins e))) ++
         (if elems.length > max_items then
           [JVal.obj (ellipsisItemsTr (elems.length - max_items))]
          else [])))] ++
        (if elems.length > max_items then [(("truncated"), JVal.b true)]
         else []))

/-- _inspect_object (inspector.py lines 410-472); ins inspects an attribute
value at depth + 1.  The attribute names come from the field dictionary and
slots in order, underscore-prefixed names are skipped, and the callability
filter is pre-applied to the modelled attribute and method lists, so the
per-attribute exception fallback (lines 447-448) is unreachable here. -/
def inspectObjRecord (max_items : Nat) (ins : Nat → Record)
    (ty mod : String) (reprRes : Option String)
    (attrs : List (String × Nat)) (methods : List String) : Record :=
  [(("type"), JVal.s ty), (("module"), JVal.s mod),
   (("value"), JVal.s (match reprRes with
     | some s => truncate_value s MAX_VALUE_LENGTH
     | Option.none => ("<") ++ ty ++ (" object>")))] ++
    (if ((attrs.take max_items).filter
          (fun p => !(p.1.startsWith ("_")))).isEmpty then []
     else
      [(("attributes"), JVal.obj
        (((attrs.take max_items).filter
            (fun p => !(p.1.startsWith ("_")))).map
          (fun p => (p.1, JVal.obj (ins p.2)))))]) ++
    (if attrs.length > max_items then
      [(("attributes_truncated"), JVal.b true)]
     else []) ++
    (if (methods.filter (fun m => !(m.startsWith ("_")))).isEmpty then []
     else
      [(("methods"), JVal.arr
        (((methods.filter (fun m => !(m.startsWith ("_")))).take 20).map
          JVal.s))] ++
        (if (methods.filter (fun m => !(m.startsWith ("_")))).length > 20 then
          [(("methods_truncated"), JVal.b true)]
         else []))

/-- _inspect_generic (inspector.py lines 474-496). -/
def inspectGenericRecord (ty mod : String) (reprRes : Option String)
    (lenVal : Option Nat) : Record :=
  [(("type"), JVal.s ty), (("module"), JVal.s mod),
   (("value"), JVal.s (match reprRes with
     | some s => truncate_value s MAX_VALUE_LENGTH
     | Option.none => ("<") ++ ty ++ (" object>")))] ++
    (match lenVal with
     | some l => [(("length"), JVal.n (Int.ofNat l))]
     | Option.none => [])

/-- Value dispatch of ObjectInspector.inspect within the depth budget
(inspector.py lines 74-120): basic types, collections, the three
recognized library families, objects exposing a field dictionary or slots,
and the generic fallback, in the source order. -/
def inspectFull (max_items : Nat) (ins : Nat → Record) : PyVal → Record
  | PyVal.none =>
    [(("type"), JVal.s ("NoneType")), (("value"), JVal.s ("None"))]
  | PyVal.bool v =>
    [(("type"), JVal.s ("bool")), (("value"), JVal.s (pyBoolStr v))]
  | PyVal.int n =>
    [(("type"), JVal.s ("int")), (("value"), JVal.s (toString n))]
  | PyVal.float render inf nan =>
    [(("type"), JVal.s ("float")), (("value"), JVal.s render)] ++
      (if inf then [(("special"), JVal.s ("infinity"))]
       else if nan then [(("special"), JVal.s ("nan"))] else [])
  | PyVal.str s =>
    [(("type"), JVal.s ("str")),
     (("length"), JVal.n (Int.ofNat s.length)),
     (("value"), JVal.s (truncate_value (pyReprStr s) MAX_STRING_LENGTH))] ++
      (if s.length > MAX_STRING_LENGTH then
        [(("truncated"), JVal.b true),
         (("full_length"), JVal.n (Int.ofNat s.length))]
       else [])
  | PyVal.bytes s =>
    [(("type"), JVal.s ("bytes")),
     (("length"), JVal.n (Int.ofNat s.length)),
     (("value"), JVal.s (truncate_value (reprBytes s) MAX_STRING_LENGTH))] ++
      (if s.length > MAX_STRING_LENGTH then [(("truncated"), JVal.b true)]
       else [])
  | PyVal.list elems => inspectSeq ("list") max_items ins elems
  | PyVal.tuple elems => inspectSeq ("tuple") max_items ins elems
  | PyVal.dict entries => inspectDict max_items ins entries
  | PyVal.set elems => inspectSet max_items ins elems
  | PyVal.obj ty mod reprRes hasDS attrs methods lenVal =>
    if is_dataframe ty mod then inspect_dataframe_header
    else if is_series ty mod then inspect_series_header
    else if is_ndarray ty mod then inspect_ndarray_header
    else if hasDS then inspectObjRecord max_items ins ty mod reprRes attrs methods
    else inspectGenericRecord ty mod reprRes lenVal

/-- ObjectInspector.inspect (inspector.py lines 39-120) with the recursion
restated on the remaining budget: the source recurses at depth + 1 and
cuts off once depth > max_depth, so budget stands for max_depth + 1 - depth
and the cutoff becomes the budget-0 case.  The circular check on the
shared self._seen set comes first (matching the source order); the set,
extended on entry and discarded from on every exit path, is the functional
objId :: seen argument. -/
def inspectB (heap : Nat → PyVal) (max_items max_depth : Nat) :
    Nat → Nat → List Nat → Record
  | 0, objId, seen =>
    if seen.contains objId then circularRecordTr (heap objId)
    else depthExceededRecord max_depth (heap objId)
  | budget + 1, objId, seen =>
    if seen.contains objId then circularRecordTr (heap objId)
    else
      inspectFull max_items
        (fun e => inspectB heap max_items max_depth budget e (objId :: seen))
        (heap objId)

/-- inspect_object (inspector.py lines 499-513): a fresh inspector with an
empty seen set, starting at depth 0, so the available budget is
max_depth + 1. -/
def inspect_object (heap : Nat → PyVal) (max_depth max_items : Nat)
    (objId : Nat) : Record :=
  inspectB heap max_items max_depth (max_depth + 1) objId []

example :
    inspect_object (fun i => if i = 0 then PyVal.list [] else PyVal.none) 3 50 0
      = [(("type"), JVal.s ("list")),
         (("length"), JVal.n 0),
         (("value"), JVal.s ("<list with 0 items>")),
         (("items"), JVal.arr [])] := rfl

-- ==========================================================================
-- SessionManager._is_process_alive (debugger.py lines 259-268)
-- ==========================================================================

/-- Outcome of the probe os.kill(pid, 0): success, ProcessLookupError
(ESRCH, no such process), or PermissionError (EPERM, the process exists but
belongs to another user). In Python 3 both error classes are subclasses of
OSError. -/
inductive KillOutcome where
  | success
  | esrch
  | eperm
deriving DecidableEq, BEq

/-- _is_process_alive (debugger.py lines 259-268).  The source catches
(OSError, ProcessLookupError) and returns False; since PermissionError is
an OSError, a permission failure also returns False. -/
def is_process_alive (pid : Option Int) (kill0 : Int → KillOutcome) : Bool :=
  match pid with
  | Option.none => false
  | some p =>
    match kill0 p with
    | KillOutcome.success => true
    | KillOutcome.esrch => false
    | KillOutcome.eperm => false

-- ==========================================================================
-- Frames, stacks and the debugger state (debugger.py lines 458-632)
-- ==========================================================================

/-- A frame snapshot: the fields of a Python frame the debugger reads
(f_code.co_filename, f_lineno, f_code.co_name).  The f_back chain is
modelled by passing the caller list alongside the frame. -/
structure Frame where
  filename : String
  lineno : Int
  funcname : String
deriving DecidableEq

/-- The stepping-mode effect of the bdb calls set_continue, set_step,
set_next, set_return and set_quit (stdlib bdb, outside this repository),
recorded so the state change of each handler stays visible. -/
inductive SteppingMode where
  | running
  | stepInto
  | stepOver (anchor : Option Frame)
  | stepOut (anchor : Option Frame)
  | quitting
deriving DecidableEq

/-- The mutable state of ClaudeDebugger (debugger.py lines 461-482):
current frame, selected-frame index, frozen stack, stop reason, exception
record, exception-breakpoint configuration and the quit flag, plus the
recorded stepping mode standing for the bdb-internal stepping state. -/
structure DebuggerState where
  current_frame : Option Frame
  current_frame_index : Nat
  stack_frames : List (Frame × Int)
  stop_reason : String
  exception_info : Option (String × String × String)
  break_on_exception : Bool
  exception_types : List String
  should_quit : Bool
  stepping : SteppingMode
deriving DecidableEq

/-- The state built by ClaudeDebugger.__init__ (debugger.py lines 461-478). -/
def initial_state : DebuggerState :=
  { current_frame := Option.none
    current_frame_index := 0
    stack_frames := []
    stop_reason := ("starting")
    exception_info := Option.none
    break_on_exception := false
    exception_types := []
    should_quit := false
    stepping := SteppingMode.running }

/-- Loop body of _build_stack (debugger.py lines 603-612): append the frame
with its line number, follow f_back, and break once the accumulated list is
longer than MAX_STACK_DEPTH. -/
def build_stack_loop : List Frame → List (Frame × Int) → List (Frame × Int)
  | [], acc => acc
  | f :: rest, acc =>
    let acc2 := acc ++ [(f, f.lineno)]
    if acc2.length > MAX_STACK_DEPTH then acc2 else build_stack_loop rest acc2

/-- _build_stack (debugger.py lines 603-612) over the frame chain listed
innermost-first (index 0 = the stopped frame). -/
def build_stack (chain : List Frame) : List (Frame × Int) :=
  build_stack_loop chain []

/-- user_line (debugger.py lines 559-565): record the frame, reset the
selected index to 0, rebuild the stack, set the stop reason.  The entry to
the command loop (_handle_stop) leaves these fields unchanged. -/
def user_line (st : DebuggerState) (frame : Frame) (callers : List Frame) :
    DebuggerState :=
  { st with current_frame := some frame
            current_frame_index := 0
            stack_frames := build_stack (frame :: callers)
            stop_reason := ("line") }

/-- user_return (debugger.py lines 572-579); stop_here abstracts the bdb
stop test self.stop_here(frame). -/
def user_return (st : DebuggerState) (stop_here : Bool) (frame : Frame)
    (callers : List Frame) : DebuggerState :=
  if stop_here then
    { st with current_frame := some frame
              current_frame_index := 0
              stack_frames := build_stack (frame :: callers)
              stop_reason := ("return") }
  else st

/-- The stop decision of user_exception (debugger.py lines 586-592): break
when exception breakpoints are active and either no named types are
configured or the raised type name is among them. -/
def should_break_on_exception (st : DebuggerState) (exc_type_name : String) :
    Bool :=
  st.break_on_exception &&
    (st.exception_types.isEmpty || st.exception_types.contains exc_type_name)

/-- user_exception (debugger.py lines 581-601).  exc_tb stands for the
joined formatted traceback string. -/
def user_exception (st : DebuggerState) (frame : Frame) (callers : List Frame)
    (exc_type_name exc_msg exc_tb : String) : DebuggerState :=
  if should_break_on_exception st exc_type_name then
    { st with current_frame := some frame
              current_frame_index := 0
              stack_frames := build_stack (frame :: callers)
              stop_reason := ("exception")
              exception_info := some (exc_type_name, exc_msg, exc_tb) }
  else st

/-- _handle_uncaught_exception (debugger.py lines 534-548): set the stop
reason and exception record, walk the traceback to its innermost frame
(chain, innermost-first; empty when no traceback is available) and rebuild
the stack.  Unlike the user_line / user_return / user_exception hooks, the
source never resets current_frame_index here. -/
def handle_uncaught_exception (st : DebuggerState)
    (exc_name exc_msg exc_tb : String) (chain : List Frame) : DebuggerState :=
  let st1 := { st with stop_reason := ("exception")
                       exception_info := some (exc_name, exc_msg, exc_tb) }
  match chain with
  | [] => st1
  | f :: _ =>
    { st1 with current_frame := some f, stack_frames := build_stack chain }

-- ==========================================================================
-- Command handlers (debugger.py lines 618-1032)
-- ==========================================================================

/-- _get_current_frame (debugger.py lines 724-728): the selected stack
entry when the index is in range, else the innermost frame. -/
def get_current_frame (st : DebuggerState) : Option Frame :=
  match st.stack_frames[st.current_frame_index]? with
  | some p => some p.1
  | Option.none => st.current_frame

/-- _get_location (debugger.py lines 700-722).  getline abstracts the
linecache lookup of the source text (already right-stripped; the source
swallows lookup errors into an empty string). -/
def get_location (getline : String → Int → String) (f : Option Frame) :
    Record :=
  match f with
  | Option.none => []
  | some fr =>
    [(("file"), JVal.s fr.filename),
     (("line"), JVal.n fr.lineno),
     (("function"), JVal.s fr.funcname),
     (("code"), JVal.s (getline fr.filename fr.lineno))]

/-- _cmd_continue (debugger.py lines 734-738): set_continue, clear the
exception record, answer with a resuming response. -/
def cmd_continue (st : DebuggerState) : DebuggerState × Record :=
  ({ st with stepping := SteppingMode.running, exception_info := Option.none },
   [(("status"), JVal.s ("running")), (("_continue"), JVal.b true)])

/-- _cmd_step (debugger.py lines 740-744). -/
def cmd_step (st : DebuggerState) : DebuggerState × Record :=
  ({ st with stepping := SteppingMode.stepInto, exception_info := Option.none },
   [(("status"), JVal.s ("stepping")), (("_continue"), JVal.b true)])

/-- _cmd_next (debugger.py lines 746-750): set_next anchored at the current
frame. -/
def cmd_next (st : DebuggerState) : DebuggerState × Record :=
  ({ st with stepping := SteppingMode.stepOver st.current_frame
             exception_info := Option.none },
   [(("status"), JVal.s ("stepping")), (("_continue"), JVal.b true)])

/-- _cmd_finish (debugger.py lines 752-756): set_return anchored at the
current frame. -/
def cmd_finish (st : DebuggerState) : DebuggerState × Record :=
  ({ st with stepping := SteppingMode.stepOut st.current_frame
             exception_info := Option.none },
   [(("status"), JVal.s ("running")), (("_continue"), JVal.b true)])

/-- _cmd_quit (debugger.py lines 1028-1032): raise the quit flag, set_quit,
answer with a resuming response.  The exception record is not touched. -/
def cmd_quit (st : DebuggerState) : DebuggerState × Record :=
  ({ st with should_quit := true, stepping := SteppingMode.quitting },
   [(("status"), JVal.s ("terminated")), (("_continue"), JVal.b true)])

/-- The exception-breakpoint branch of _cmd_break (debugger.py lines
765-774): activate exception breakpointing and, unless the wildcard was
given, record the named type once.  The wildcard itself is never stored. -/
def cmd_break_exception (st : DebuggerState) (exception_type : String) :
    DebuggerState × Record :=
  let st2 := { st with
    break_on_exception := true
    exception_types :=
      if exception_type != ("*") &&
         !(st.exception_types.contains exception_type) then
        st.exception_types ++ [exception_type]
      else st.exception_types }
  (st2, [(("status"), JVal.s ("ok")),
         (("message"), JVal.s (("Exception breakpoint set for ") ++ exception_type))])

/-- _cmd_up (debugger.py lines 1002-1013): move toward the caller while the
index is below len(stack) - 1 (integer arithmetic, as in the source),
otherwise report an error and leave the state unchanged. -/
def cmd_up (getline : String → Int → String) (st : DebuggerState) :
    DebuggerState × Record :=
  if (st.current_frame_index : Int) < (st.stack_frames.length : Int) - 1 then
    let st2 := { st with current_frame_index := st.current_frame_index + 1 }
    (st2, [(("status"), JVal.s ("ok")),
           (("message"), JVal.s (("Moved to frame ") ++ toString st2.current_frame_index)),
           (("location"), JVal.obj (get_location getline (get_current_frame st2)))])
  else (st, [(("error"), JVal.s ("Already at oldest frame"))])

/-- _cmd_down (debugger.py lines 1015-1026): move toward the innermost
frame while the index is above 0, otherwise report an error. -/
def cmd_down (getline : String → Int → String) (st : DebuggerState) :
    DebuggerState × Record :=
  if 0 < st.current_frame_index then
    let st2 := { st with current_frame_index := st.current_frame_index - 1 }
    (st2, [(("status"), JVal.s ("ok")),
           (("message"), JVal.s (("Moved to frame ") ++ toString st2.current_frame_index)),
           (("location"), JVal.obj (get_location getline (get_current_frame st2)))])
  else (st, [(("error"), JVal.s ("Already at newest frame"))])

/-- The per-frame entries of _cmd_stack (debugger.py lines 988-1000). -/
def stackEntries (st : DebuggerState) : List JVal :=
  st.stack_frames.enum.map (fun p =>
    JVal.obj
      [(("index"), JVal.n (Int.ofNat p.1)),
       (("file"), JVal.s p.2.1.filename),
       (("line"), JVal.n p.2.2),
       (("function"), JVal.s p.2.1.funcname),
       (("current"), JVal.b (p.1 == st.current_frame_index))])

/-- _cmd_stack (debugger.py lines 988-1000). -/
def cmd_stack (st : DebuggerState) : DebuggerState × Record :=
  (st, [(("status"), JVal.s ("ok")),
        (("stack"), JVal.arr (stackEntries st)),
        (("current_index"), JVal.n (Int.ofNat st.current_frame_index))])

-- ==========================================================================
-- Command dispatch (debugger.py lines 644-672)
-- ==========================================================================

/-- An exception escaping a handler: str(e) and the formatted traceback. -/
structure PyExc where
  msg : String
  tb : String

/-- The keys of the handler table (debugger.py lines 646-663). -/
def handler_names : List String :=
  [("status"), ("continue"), ("step"), ("next"), ("finish"), ("break"),
   ("delete"), ("breakpoints"), ("locals"), ("globals"), ("eval"),
   ("inspect"), ("stack"), ("up"), ("down"), ("quit")]

/-- _process_command (debugger.py lines 644-672).  run_handler abstracts
invoking the named handler on the received command record (the payload is
inside its closure): Except.error models the handler raising.  A known
name routes to the handler under try/except; an unknown name yields the
unknown-command error record.  The function is total: no path re-raises to
the caller. -/
def process_command (run_handler : String → Except PyExc Record)
    (cmd_name : String) : Record :=
  if handler_names.contains cmd_name then
    match run_handler cmd_name with
    | Except.ok r => r
    | Except.error e =>
      [(("error"), JVal.s (("Command error: ") ++ e.msg)),
       (("traceback"), JVal.s e.tb)]
  else
    [(("error"), JVal.s (("Unknown command: ") ++ cmd_name))]

-- ==========================================================================
-- Nesting depth of formatter output
-- ==========================================================================

/-- Extract the field list of an object value. -/
def objFields : JVal → Option Record
  | JVal.obj f => some f
  | _ => Option.none

/-- The sub-records reachable through one items or attributes value: for a
sequence the object elements of the array, for a dict or attribute map the
object values of the entries. -/
def childrenOfVal : Option JVal → List Record
  | some (JVal.arr xs) => xs.filterMap objFields
  | some (JVal.obj kvs) => (kvs.map (fun p => p.2)).filterMap objFields
  | _ => []

/-- The child records of a formatter record: the records nested one level
below it, through its items field (collections) and its attributes field
(inspected objects). -/
def recordChildren (r : Record) : List Record :=
  childrenOfVal (getField r ("items")) ++
    childrenOfVal (getField r ("attributes"))

/-- The record nests no deeper than n levels of child records: a record
without children satisfies every bound, and a record whose children all
satisfy n satisfies n + 1. -/
inductive NestLe : Nat → Record → Prop where
  | leaf (n : Nat) (r : Record) : recordChildren r = [] → NestLe n r
  | node (n : Nat) (r : Record) :
      (∀ c ∈ recordChildren r, NestLe n c) → NestLe (n + 1) r

-- ==========================================================================
-- Navigation sequences and concrete fixtures
-- ==========================================================================

/-- An up or down command, for iterating _cmd_up / _cmd_down. -/
inductive NavCmd where
  | up
  | down

/-- Apply a sequence of up/down commands to the state, discarding the
responses. -/
def apply_nav (getline : String → Int → String) :
    List NavCmd → DebuggerState → DebuggerState
  | [], st => st
  | NavCmd.up :: rest, st => apply_nav getline rest (cmd_up getline st).1
  | NavCmd.down :: rest, st => apply_nav getline rest (cmd_down getline st).1

/-- A source-line lookup that always fails, as linecache does for a file
with no cached source. -/
def getline0 : String → Int → String := fun _ _ => ("")

def frameA : Frame :=
  { filename := ("/tmp/a.py"), lineno := 10, funcname := ("f") }

def frameB : Frame :=
  { filename := ("/tmp/a.py"), lineno := 3, funcname := ("main") }

def frameC : Frame :=
  { filename := ("/tmp/a.py"), lineno := 1, funcname := ("module") }

/-- Heap with a self-referential list: object 0 is a list whose only
element is object 0 itself, as built by l = []; l.append(l). -/
def heapCyc : Nat → PyVal := fun i =>
  if i = 0 then PyVal.list [0] else PyVal.none

/-- Heap with a list holding an empty inner list. -/
def heapNested : Nat → PyVal := fun i =>
  if i = 0 then PyVal.list [1]
  else if i = 1 then PyVal.list []
  else PyVal.none

/-- Heap whose object 0 is the empty list. -/
def heapEmptyList : Nat → PyVal := fun _ => PyVal.list []

/-- The state after the two CLI calls break -e ValueError and break -e *
on a fresh daemon. -/
def st_c1 : DebuggerState :=
  (cmd_break_exception (cmd_break_exception initial_state ("ValueError")).1 ("*")).1

/-- A paused state carrying an exception record. -/
def st_exc : DebuggerState :=
  { initial_state with
      exception_info := some ((("ValueError"), ("boom"), ("tb"))) }

/-- Line stop in f called from main: a two-frame stack. -/
def st_c2_line : DebuggerState := user_line initial_state frameA [frameB]

/-- The same stop after one up command: the selected index is 1. -/
def st_c2_up : DebuggerState := (cmd_up getline0 st_c2_line).1

/-- After resuming with continue from the navigated stop. -/
def st_c2_cont : DebuggerState := (cmd_continue st_c2_up).1

/-- The final stop for an uncaught exception escaping the top frame,
reached from the resumed state. -/
def st_c2_final : DebuggerState :=
  handle_uncaught_exception st_c2_cont ("ZeroDivisionError")
    ("division by zero") ("tb") [frameA, frameB]

/-- A paused state with a frozen three-frame stack, innermost first. -/
def st_stack3 : DebuggerState :=
  { initial_state with
      current_frame := some frameA
      stack_frames := [(frameA, 10), (frameB, 3), (frameC, 1)] }

/-- A handler run that always raises, standing for a handler body hitting
an exception. -/
def run_fail : String → Except PyExc Record := fun _ =>
  Except.error { msg := ("division by zero")
                 tb := ("Traceback (most recent call last): ...") }

example : st_c2_up.current_frame_index = 1 := rfl
example : st_c2_final.current_frame_index = 1 := rfl

-- ==========================================================================
-- Theorems
-- ==========================================================================

/-- C1: the claim is false on the code.  A named exception breakpoint set
before the wildcard survives in exception_types, and user_exception treats
a nonempty exception_types list as the filter: after break ValueError then
break *, a TypeError event does not stop at all (the state is returned
unchanged and no stop reason is recorded). -/
theorem c1_counterexample :
    user_exception st_c1 frameA [] ("TypeError") ("boom") ("tb") = st_c1 ∧
    st_c1.stop_reason = ("starting") ∧
    st_c1.exception_types = [("ValueError")] := by
  refine ⟨?_, rfl, rfl⟩
  rfl

/-- C1 (amended): a wildcard break guarantees stops on every exception type
only when no named exception breakpoints are configured when it is
processed; then every subsequent exception event stops with reason
exception and records the exception triple. -/
theorem c1_amended (st : DebuggerState) (f : Frame) (callers : List Frame)
    (name msg tb : String) (h : st.exception_types = []) :
    (user_exception (cmd_break_exception st ("*")).1 f callers
        name msg tb).stop_reason = ("exception") ∧
    (user_exception (cmd_break_exception st ("*")).1 f callers
        name msg tb).exception_info = some (name, msg, tb) := by
  have hb : should_break_on_exception (cmd_break_exception st ("*")).1 name = true := by
    simp [should_break_on_exception, cmd_break_exception, h]
  constructor <;> simp [user_exception, hb]

theorem c1_witness :
    (user_exception (cmd_break_exception initial_state ("*")).1 frameA []
        ("KeyError") ("k") ("t")).stop_reason = ("exception") ∧
    (user_exception (cmd_break_exception initial_state ("*")).1 frameA []
        ("KeyError") ("k") ("t")).exception_info =
      some ((("KeyError"), ("k"), ("t"))) :=
  c1_amended initial_state frameA [] ("KeyError") ("k") ("t") rfl

/-- C2: the claim holds at line, return and exception stops, where the
hooks reset current_frame_index to 0, but the code violates it at the final
stop for an uncaught exception: handle_uncaught_exception never resets the
index, so after a stop navigated with up (index 1) followed by continue,
the final exception stop enters the command loop with index 1, not 0. -/
theorem c2_theorem :
    st_c2_line.current_frame_index = 0 ∧
    st_c2_up.current_frame_index = 1 ∧
    st_c2_final.stop_reason = ("exception") ∧
    st_c2_final.current_frame_index = 1 ∧
    (∀ (st : DebuggerState) (f : Frame) (cs : List Frame),
      (user_line st f cs).current_frame_index = 0 ∧
      (user_return st true f cs).current_frame_index = 0) :=
  ⟨rfl, rfl, rfl, rfl, fun _ _ _ => ⟨rfl, rfl⟩⟩

/-- C3: the claim is false on the code.  The except clause of
_is_process_alive catches (OSError, ProcessLookupError), and PermissionError
is a subclass of OSError in Python 3, so a permission-denied probe reports
the process as dead, not alive. -/
theorem c3_counterexample :
    is_process_alive (some 1234) (fun _ => KillOutcome.eperm) = false := rfl

/-- C3 (amended): the liveness probe reports alive exactly when the
signal-0 probe succeeds; a missing pid, an ESRCH-class error and a
permission error all report dead. -/
theorem c3_amended (kill0 : Int → KillOutcome) (p : Int) :
    is_process_alive Option.none kill0 = false ∧
    is_process_alive (some p) kill0 = (kill0 p == KillOutcome.success) := by
  refine ⟨rfl, ?_⟩
  cases h : kill0 p <;> simp [is_process_alive, h] <;> decide

/-- C7: the claim is false on the code for quit.  _cmd_quit returns a
resuming response (_continue true) but does not clear exception_info. -/
theorem c7_counterexample :
    ((cmd_quit st_exc).1).exception_info =
      some ((("ValueError"), ("boom"), ("tb"))) ∧
    getField (cmd_quit st_exc).2 ("_continue") = some (JVal.b true) := by
  exact ⟨rfl, rfl⟩

/-- C7 (amended): continue, step, next and finish clear the exception
record before control returns to the tracing engine; quit, although also a
resuming command, leaves the exception record unchanged and terminates the
daemon instead. -/
theorem c7_amended (st : DebuggerState) :
    (cmd_continue st).1.exception_info = Option.none ∧
    (cmd_step st).1.exception_info = Option.none ∧
    (cmd_next st).1.exception_info = Option.none ∧
    (cmd_finish st).1.exception_info = Option.none ∧
    (cmd_quit st).1.exception_info = st.exception_info ∧
    getField (cmd_continue st).2 ("_continue") = some (JVal.b true) ∧
    getField (cmd_step st).2 ("_continue") = some (JVal.b true) ∧
    getField (cmd_next st).2 ("_continue") = some (JVal.b true) ∧
    getField (cmd_finish st).2 ("_continue") = some (JVal.b true) ∧
    getField (cmd_quit st).2 ("_continue") = some (JVal.b true) :=
  ⟨rfl, rfl, rfl, rfl, rfl, rfl, rfl, rfl, rfl, rfl⟩

/-- C9: the dispatcher always returns a response record.  When the looked-up
handler raises, the response carries an error field with the message and a
formatted traceback; when the command name matches no handler, the
response carries an error field naming the unknown command.  Totality of
process_command models that no path re-raises to the caller. -/
theorem c9_theorem (run_handler : String → Except PyExc Record)
    (cmd_name : String) (e : PyExc) :
    (handler_names.contains cmd_name = true →
      run_handler cmd_name = Except.error e →
      process_command run_handler cmd_name =
        [(("error"), JVal.s (("Command error: ") ++ e.msg)),
         (("traceback"), JVal.s e.tb)]) ∧
    (handler_names.contains cmd_name = false →
      process_command run_handler cmd_name =
        [(("error"), JVal.s (("Unknown command: ") ++ cmd_name))]) := by
  constructor
  · intro h1 h2
    simp at h1
    simp [process_command, h1, h2]
  · intro h1
    simp at h1
    simp [process_command, h1]

/-- Looking a key up across an append skips a left part without the key. -/
theorem getField_append_of_none (r r2 : Record) (k : String)
    (h : getField r k = Option.none) :
    getField (r ++ r2) k = getField r2 k := by
  induction r with
  | nil => rw [List.nil_append]
  | cons p rest ih =>
    rw [List.cons_append]
    simp only [getField] at h ⊢
    by_cases hk : p.1 = k
    · rw [if_pos hk] at h; cases h
    · rw [if_neg hk] at h ⊢
      exact ih h

/-- Looking a key up across an append finds it in the left part. -/
theorem getField_append_of_some (r r2 : Record) (k : String) (v : JVal)
    (h : getField r k = some v) : getField (r ++ r2) k = some v := by
  induction r with
  | nil => cases h
  | cons p rest ih =>
    rw [List.cons_append]
    simp only [getField] at h ⊢
    by_cases hk : p.1 = k
    · rw [if_pos hk] at h ⊢; exact h
    · rw [if_neg hk] at h ⊢
      exact ih h

/-- A record that extracted to some object belongs to the list. -/
theorem obj_mem_of_mem_filterMap {xs : List JVal} {c : Record}
    (h : c ∈ xs.filterMap objFields) : JVal.obj c ∈ xs := by
  rcases List.mem_filterMap.mp h with ⟨a, ha, he⟩
  cases a <;> simp [objFields] at he
  rw [he] at ha
  exact ha

/-- A record without items and attributes fields has no children. -/
theorem recordChildren_eq_nil (r : Record)
    (h1 : getField r ("items") = Option.none)
    (h2 : getField r ("attributes") = Option.none) :
    recordChildren r = [] := by
  rw [recordChildren, h1, h2]
  rfl

/-- A record without items and attributes fields nests within any bound. -/
theorem nestle_of_fields (n : Nat) (r : Record)
    (h1 : getField r ("items") = Option.none)
    (h2 : getField r ("attributes") = Option.none) : NestLe n r :=
  NestLe.leaf n r (recordChildren_eq_nil r h1 h2)

/-- Characterize the children of a record through its two getField values. -/
theorem nestle_of_getField (n : Nat) (r : Record) (vi va : Option JVal)
    (h1 : getField r ("items") = vi) (h2 : getField r ("attributes") = va)
    (h : ∀ c ∈ childrenOfVal vi ++ childrenOfVal va, NestLe n c) :
    NestLe (n + 1) r := by
  apply NestLe.node
  intro c hc
  rw [recordChildren, h1, h2] at hc
  exact h c hc

/-- A record of type, value and an array items field nests one level above
its object elements. -/
theorem nestle_arr_items (n : Nat) (t v : String) (xs : List JVal)
    (h : ∀ c, JVal.obj c ∈ xs → NestLe n c) :
    NestLe (n + 1)
      [(("type"), JVal.s t), (("value"), JVal.s v),
       (("items"), JVal.arr xs)] := by
  apply NestLe.node
  intro c hc
  have hr : recordChildren
      [(("type"), JVal.s t), (("value"), JVal.s v),
       (("items"), JVal.arr xs)] = xs.filterMap objFields ++ [] := rfl
  rw [hr, List.append_nil] at hc
  exact h c (obj_mem_of_mem_filterMap hc)

/-- A record of type, value and an object-map items field nests one level
above the object values of the map. -/
theorem nestle_map_items (n : Nat) (t v : String)
    (kvs : List (String × JVal))
    (h : ∀ c, JVal.obj c ∈ kvs.map (fun p => p.2) → NestLe n c) :
    NestLe (n + 1)
      [(("type"), JVal.s t), (("value"), JVal.s v),
       (("items"), JVal.obj kvs)] := by
  apply NestLe.node
  intro c hc
  have hr : recordChildren
      [(("type"), JVal.s t), (("value"), JVal.s v),
       (("items"), JVal.obj kvs)] =
      (kvs.map (fun p => p.2)).filterMap objFields ++ [] := rfl
  rw [hr, List.append_nil] at hc
  exact h c (obj_mem_of_mem_filterMap hc)

/-- Every record the budget-exhausted formatter dispatch produces is
childless. -/
theorem nestle_formatValueCapped (n : Nat) (v : PyVal) :
    NestLe n (formatValueCapped v) := by
  cases v <;> exact NestLe.leaf _ _ rfl

/-- Within the budget, the formatter dispatch nests one level above the
records its child formatter produces. -/
theorem nestle_formatValueFull (n : Nat) (fmt : Nat → Record)
    (hf : ∀ e, NestLe n (fmt e)) (v : PyVal) :
    NestLe (n + 1) (formatValueFull fmt v) := by
  cases v with
  | none => exact NestLe.leaf _ _ rfl
  | bool b => exact NestLe.leaf _ _ rfl
  | int m => exact NestLe.leaf _ _ rfl
  | float r i na => exact NestLe.leaf _ _ rfl
  | str s => exact NestLe.leaf _ _ rfl
  | bytes s => exact NestLe.leaf _ _ rfl
  | obj ty mod rr hd ats ms lv => exact NestLe.leaf _ _ rfl
  | list elems =>
    rw [formatValueFull]
    apply nestle_arr_items
    intro c hc
    rcases List.mem_append.mp hc with h1 | h2
    · rcases List.mem_map.mp h1 with ⟨e, _, heq⟩
      injection heq with h3
      rw [← h3]
      exact hf e
    · split at h2
      · simp at h2
        rw [h2]
        exact NestLe.leaf _ _ rfl
      · simp at h2
  | tuple elems =>
    rw [formatValueFull]
    apply nestle_arr_items
    intro c hc
    rcases List.mem_append.mp hc with h1 | h2
    · rcases List.mem_map.mp h1 with ⟨e, _, heq⟩
      injection heq with h3
      rw [← h3]
      exact hf e
    · split at h2
      · simp at h2
        rw [h2]
        exact NestLe.leaf _ _ rfl
      · simp at h2
  | set elems =>
    rw [formatValueFull]
    apply nestle_arr_items
    intro c hc
    rcases List.mem_append.mp hc with h1 | h2
    · rcases List.mem_map.mp h1 with ⟨e, _, heq⟩
      injection heq with h3
      rw [← h3]
      exact hf e
    · split at h2
      · simp at h2
        rw [h2]
        exact NestLe.leaf _ _ rfl
      · simp at h2
  | dict entries =>
    rw [formatValueFull]
    apply nestle_map_items
    intro c hc
    rw [List.map_append] at hc
    rcases List.mem_append.mp hc with h1 | h2
    · rcases List.mem_map.mp h1 with ⟨q, hq, he2⟩
      rcases List.mem_map.mp hq with ⟨p, _, hfe⟩
      rw [← hfe] at he2
      simp only at he2
      injection he2 with h3
      rw [← h3]
      exact hf p.2
    · split at h2
      · simp at h2
        rw [h2]
        exact NestLe.leaf _ _ rfl
      · simp at h2

/-- A record of the shape prefix ++ items ++ suffix nests one level above
the children of its items value, provided neither prefix nor suffix holds
items or attributes fields. -/
theorem nestle_items_record (n : Nat) (pre : Record) (iv : JVal)
    (post : Record)
    (hpre_i : getField pre ("items") = Option.none)
    (hpre_a : getField pre ("attributes") = Option.none)
    (hpost_a : getField post ("attributes") = Option.none)
    (h : ∀ c ∈ childrenOfVal (some iv), NestLe n c) :
    NestLe (n + 1) (pre ++ ([(("items"), iv)] ++ post)) := by
  apply nestle_of_getField _ _ (some iv) Option.none
  · rw [getField_append_of_none _ _ _ hpre_i]
    rfl
  · rw [getField_append_of_none _ _ _ hpre_a]
    have h2 : getField ([(("items"), iv)] ++ post) ("attributes") =
        getField post ("attributes") := getField_append_of_none _ _ _ rfl
    rw [h2]
    exact hpost_a
  · intro c hc
    rw [show childrenOfVal Option.none = ([] : List Record) from rfl,
      List.append_nil] at hc
    exact h c hc

/-- _inspect_sequence output nests one level above its child records. -/
theorem nestle_inspectSeq (n : Nat) (ty : String) (mi : Nat)
    (ins : Nat → Record) (hins : ∀ e, NestLe n (ins e)) (elems : List Nat) :
    NestLe (n + 1) (inspectSeq ty mi ins elems) := by
  rw [inspectSeq]
  split
  · exact NestLe.leaf _ _ rfl
  · apply nestle_items_record
    · rfl
    · rfl
    · split <;> rfl
    · intro c hc
      have hc2 : c ∈ (((elems.take mi).map (fun e => JVal.obj (ins e))) ++
          (if elems.length > mi then
            [JVal.obj (ellipsisItemsTr (elems.length - mi))]
           else [])).filterMap objFields := hc
      rcases List.mem_append.mp (obj_mem_of_mem_filterMap hc2) with h1 | h2
      · rcases List.mem_map.mp h1 with ⟨e, _, heq⟩
        injection heq with h3
        rw [← h3]
        exact hins e
      · split at h2
        · simp at h2
          rw [h2]
          exact NestLe.leaf _ _ rfl
        · simp at h2

/-- _inspect_set output nests one level above its child records. -/
theorem nestle_inspectSet (n : Nat) (mi : Nat) (ins : Nat → Record)
    (hins : ∀ e, NestLe n (ins e)) (elems : List Nat) :
    NestLe (n + 1) (inspectSet mi ins elems) := by
  rw [inspectSet]
  split
  · exact NestLe.leaf _ _ rfl
  · apply nestle_items_record
    · rfl
    · rfl
    · split <;> rfl
    · intro c hc
      have hc2 : c ∈ (((elems.take mi).map (fun e => JVal.obj (ins e))) ++
          (if elems.length > mi then
            [JVal.obj (ellipsisItemsTr (elems.length - mi))]
           else [])).filterMap objFields := hc
      rcases List.mem_append.mp (obj_mem_of_mem_filterMap hc2) with h1 | h2
      · rcases List.mem_map.mp h1 with ⟨e, _, heq⟩
        injection heq with h3
        rw [← h3]
        exact hins e
      · split at h2
        · simp at h2
          rw [h2]
          exact NestLe.leaf _ _ rfl
        · simp at h2

/-- _inspect_dict output nests one level above its child records. -/
theorem nestle_inspectDict (n : Nat) (mi : Nat) (ins : Nat → Record)
    (hins : ∀ e, NestLe n (ins e)) (entries : List (String × Nat)) :
    NestLe (n + 1) (inspectDict mi ins entries) := by
  rw [inspectDict]
  split
  · exact NestLe.leaf _ _ rfl
  · apply nestle_items_record
    · rfl
    · rfl
    · split <;> rfl
    · intro c hc
      have hc2 : c ∈ ((((entries.take mi).map
            (fun p => (truncate_value p.1 100, JVal.obj (ins p.2)))) ++
          (if entries.length > mi then
            [(("..."), JVal.obj (ellipsisKeysTr (entries.length - mi)))]
           else [])).map (fun p => p.2)).filterMap objFields := hc
      have hm := obj_mem_of_mem_filterMap hc2
      rw [List.map_append] at hm
      rcases List.mem_append.mp hm with h1 | h2
      · rcases List.mem_map.mp h1 with ⟨q, hq, he2⟩
        rcases List.mem_map.mp hq with ⟨p, _, hfe⟩
        rw [← hfe] at he2
        simp only at he2
        injection he2 with h3
        rw [← h3]
        exact hins p.2
      · split at h2
        · simp at h2
          rw [h2]
          exact NestLe.leaf _ _ rfl
        · simp at h2

/-- _inspect_generic output is childless. -/
theorem nestle_inspectGenericRecord (n : Nat) (ty mod : String)
    (rr : Option String) (lv : Option Nat) :
    NestLe n (inspectGenericRecord ty mod rr lv) := by
  cases lv <;> exact NestLe.leaf _ _ rfl

/-- The inspected-attribute records of _inspect_object all satisfy the
child bound. -/
theorem nestle_attrs_children (n mi : Nat) (ins : Nat → Record)
    (hins : ∀ e, NestLe n (ins e)) (attrs : List (String × Nat)) :
    ∀ c ∈ childrenOfVal Option.none ++ childrenOfVal (some (JVal.obj
      (((attrs.take mi).filter (fun p => !(p.1.startsWith ("_")))).map
        (fun p => (p.1, JVal.obj (ins p.2)))))), NestLe n c := by
  intro c hc
  have hc2 : c ∈ ((((attrs.take mi).filter
      (fun p => !(p.1.startsWith ("_")))).map
        (fun p => (p.1, JVal.obj (ins p.2)))).map
          (fun p => p.2)).filterMap objFields := hc
  rcases List.mem_map.mp (obj_mem_of_mem_filterMap hc2) with ⟨q, hq, he2⟩
  rcases List.mem_map.mp hq with ⟨p, _, hfe⟩
  rw [← hfe] at he2
  simp only at he2
  injection he2 with h3
  rw [← h3]
  exact hins p.2

/-- _inspect_object output nests one level above the records of its
inspected attributes. -/
theorem nestle_inspectObjRecord (n mi : Nat) (ins : Nat → Record)
    (hins : ∀ e, NestLe n (ins e)) (ty mod : String) (rr : Option String)
    (attrs : List (String × Nat)) (ms : List String) :
    NestLe (n + 1) (inspectObjRecord mi ins ty mod rr attrs ms) := by
  rw [inspectObjRecord.eq_def]
  repeat' split
  all_goals first
  | exact NestLe.leaf _ _ rfl
  | (apply NestLe.node; intro c hc;
     exact nestle_attrs_children n mi ins hins attrs c hc)

/-- Within the budget, the inspector dispatch nests one level above the
records its child inspection produces. -/
theorem nestle_inspectFull (n mi : Nat) (ins : Nat → Record)
    (hins : ∀ e, NestLe n (ins e)) (v : PyVal) :
    NestLe (n + 1) (inspectFull mi ins v) := by
  cases v with
  | none => exact NestLe.leaf _ _ rfl
  | bool b => exact NestLe.leaf _ _ rfl
  | int m => exact NestLe.leaf _ _ rfl
  | float r i na =>
    rw [inspectFull]
    split
    · exact NestLe.leaf _ _ rfl
    · split <;> exact NestLe.leaf _ _ rfl
  | str s =>
    rw [inspectFull]
    split <;> exact NestLe.leaf _ _ rfl
  | bytes s =>
    rw [inspectFull]
    split <;> exact NestLe.leaf _ _ rfl
  | list elems => exact nestle_inspectSeq n ("list") mi ins hins elems
  | tuple elems => exact nestle_inspectSeq n ("tuple") mi ins hins elems
  | dict entries => exact nestle_inspectDict n mi ins hins entries
  | set elems => exact nestle_inspectSet n mi ins hins elems
  | obj ty mod rr hd ats ms2 lv =>
    rw [inspectFull]
    split
    · exact NestLe.leaf _ _ rfl
    · split
      · exact NestLe.leaf _ _ rfl
      · split
        · exact NestLe.leaf _ _ rfl
        · split
          · exact nestle_inspectObjRecord n mi ins hins ty mod rr ats ms2
          · exact nestle_inspectGenericRecord _ ty mod rr lv

/-- The inspector output never nests deeper than the remaining depth
budget. -/
theorem inspectB_nest (heap : Nat → PyVal) (mi md : Nat) :
    ∀ (b objId : Nat) (seen : List Nat),
      NestLe b (inspectB heap mi md b objId seen) := by
  intro b
  induction b with
  | zero =>
    intro objId seen
    rw [inspectB]
    split
    · exact NestLe.leaf _ _ rfl
    · exact NestLe.leaf _ _ rfl
  | succ b ih =>
    intro objId seen
    rw [inspectB]
    split
    · exact NestLe.leaf _ _ rfl
    · exact nestle_inspectFull b mi _
        (fun e => ih e (objId :: seen)) (heap objId)

/-- The formatter output never nests deeper than the remaining depth
budget. -/
theorem formatValueB_nest (heap : Nat → PyVal) :
    ∀ (b objId curd : Nat) (seen : List Nat),
      NestLe b (formatValueB heap b objId curd seen) := by
  intro b
  induction b with
  | zero =>
    intro objId curd seen
    rw [formatValueB]
    split
    · exact NestLe.leaf _ _ rfl
    · exact nestle_formatValueCapped 0 (heap objId)
  | succ b ih =>
    intro objId curd seen
    rw [formatValueB]
    split
    · exact NestLe.leaf _ _ rfl
    · exact nestle_formatValueFull b _
        (fun e => ih e (curd + 1) (objId :: seen)) (heap objId)

/-- Neither navigation command touches the frozen stack. -/
theorem nav_preserves_stack (g : String → Int → String) (st : DebuggerState) :
    (cmd_up g st).1.stack_frames = st.stack_frames ∧
    (cmd_down g st).1.stack_frames = st.stack_frames := by
  constructor
  · unfold cmd_up
    split <;> rfl
  · unfold cmd_down
    split <;> rfl

/-- One navigation step keeps the selected index below the stack length. -/
theorem nav_preserves_index_lt (g : String → Int → String) (st : DebuggerState)
    (h : st.current_frame_index < st.stack_frames.length) :
    (cmd_up g st).1.current_frame_index < st.stack_frames.length ∧
    (cmd_down g st).1.current_frame_index < st.stack_frames.length := by
  constructor
  · unfold cmd_up
    split
    · next h2 => simp only; omega
    · exact h
  · unfold cmd_down
    split
    · simp only; omega
    · exact h

/-- Iterated navigation keeps the index below the stack length and
preserves the stack. -/
theorem apply_nav_inv (g : String → Int → String) (navs : List NavCmd) :
    ∀ st : DebuggerState, st.current_frame_index < st.stack_frames.length →
      (apply_nav g navs st).current_frame_index < st.stack_frames.length ∧
      (apply_nav g navs st).stack_frames = st.stack_frames := by
  induction navs with
  | nil => intro st h; exact ⟨h, rfl⟩
  | cons nav rest ih =>
    intro st h
    cases nav with
    | up =>
      have hs := (nav_preserves_stack g st).1
      have hi := (nav_preserves_index_lt g st h).1
      have := ih (cmd_up g st).1 (by rw [hs]; exact hi)
      simp only [apply_nav]
      rw [hs] at this
      exact this
    | down =>
      have hs := (nav_preserves_stack g st).2
      have hi := (nav_preserves_index_lt g st h).2
      have := ih (cmd_down g st).1 (by rw [hs]; exact hi)
      simp only [apply_nav]
      rw [hs] at this
      exact this

/-- C8: over any frozen stack, the selected index stays in range under any
sequence of up and down commands (the lower bound 0 is inherent in the Nat
index, matching the source where the guarded arithmetic never goes below
0); up increments exactly while the index is below length - 1 and
otherwise returns the error record with the state unchanged; down
decrements exactly while the index is above 0 and otherwise returns the
error record with the state unchanged. -/
theorem c8_theorem (getline : String → Int → String) (st : DebuggerState) :
    (∀ navs : List NavCmd,
      st.current_frame_index < st.stack_frames.length →
      (apply_nav getline navs st).current_frame_index <
          st.stack_frames.length ∧
      (apply_nav getline navs st).stack_frames = st.stack_frames) ∧
    ((st.current_frame_index : Int) < (st.stack_frames.length : Int) - 1 →
      (cmd_up getline st).1.current_frame_index =
        st.current_frame_index + 1) ∧
    (¬ ((st.current_frame_index : Int) < (st.stack_frames.length : Int) - 1) →
      cmd_up getline st =
        (st, [(("error"), JVal.s ("Already at oldest frame"))])) ∧
    (0 < st.current_frame_index →
      (cmd_down getline st).1.current_frame_index =
        st.current_frame_index - 1) ∧
    (st.current_frame_index = 0 →
      cmd_down getline st =
        (st, [(("error"), JVal.s ("Already at newest frame"))])) := by
  refine ⟨fun navs h => apply_nav_inv getline navs st h, ?_, ?_, ?_, ?_⟩
  · intro h
    unfold cmd_up
    rw [if_pos h]
  · intro h
    unfold cmd_up
    rw [if_neg h]
  · intro h
    unfold cmd_down
    rw [if_pos h]
  · intro h
    unfold cmd_down
    rw [if_neg (by omega)]

theorem c8_witness :
    (apply_nav getline0 [NavCmd.up, NavCmd.up, NavCmd.up, NavCmd.down]
        st_stack3).current_frame_index < st_stack3.stack_frames.length ∧
    (cmd_up getline0 st_stack3).1.current_frame_index = 1 ∧
    cmd_down getline0 st_stack3 =
      (st_stack3, [(("error"), JVal.s ("Already at newest frame"))]) :=
  ⟨((c8_theorem getline0 st_stack3).1
      [NavCmd.up, NavCmd.up, NavCmd.up, NavCmd.down] (by decide)).1,
   (c8_theorem getline0 st_stack3).2.1 (by decide),
   (c8_theorem getline0 st_stack3).2.2.2.2 rfl⟩

/-- Unrolling of the _build_stack loop: as long as the accumulator is
within the cap, the loop appends the line-paired prefix of the remaining
chain that fills the accumulator up to MAX_STACK_DEPTH + 1 entries. -/
theorem build_stack_loop_eq (l : List Frame) :
    ∀ acc : List (Frame × Int), acc.length ≤ MAX_STACK_DEPTH →
      build_stack_loop l acc =
        acc ++ (l.take (MAX_STACK_DEPTH + 1 - acc.length)).map
          (fun f => (f, f.lineno)) := by
  induction l with
  | nil => intro acc h; simp [build_stack_loop]
  | cons f rest ih =>
    intro acc h
    simp only [build_stack_loop]
    by_cases hl : (acc ++ [(f, f.lineno)]).length > MAX_STACK_DEPTH
    · rw [if_pos hl]
      have h50 : acc.length = MAX_STACK_DEPTH := by
        simp at hl; omega
      have h1 : MAX_STACK_DEPTH + 1 - acc.length = 1 := by omega
      rw [h1]
      simp
    · rw [if_neg hl]
      have h2 : (acc ++ [(f, f.lineno)]).length ≤ MAX_STACK_DEPTH := by omega
      rw [ih _ h2]
      have h3 : MAX_STACK_DEPTH + 1 - acc.length =
          (MAX_STACK_DEPTH + 1 - (acc ++ [(f, f.lineno)]).length) + 1 := by
        simp at hl ⊢
        omega
      rw [h3, List.take_succ_cons]
      simp

/-- C10: the stack view built at a stop holds at most
MAX_STACK_DEPTH + 1 = 51 entries, it is exactly the line-paired prefix of
the frame chain (so index 0 is the stopped frame and the order follows the
caller chain outward), and the stack command enumerates exactly those
entries, hence never more than 51. -/
theorem c10_theorem (chain : List Frame) (st : DebuggerState) :
    (build_stack chain).length ≤ MAX_STACK_DEPTH + 1 ∧
    build_stack chain =
      (chain.take (MAX_STACK_DEPTH + 1)).map (fun f => (f, f.lineno)) ∧
    (stackEntries { st with stack_frames := build_stack chain }).length ≤
      MAX_STACK_DEPTH + 1 ∧
    getField (cmd_stack { st with stack_frames := build_stack chain }).2
        ("stack") =
      some (JVal.arr
        (stackEntries { st with stack_frames := build_stack chain })) := by
  have h := build_stack_loop_eq chain [] (by simp)
  simp only [List.nil_append, List.length_nil, Nat.sub_zero] at h
  have hb : build_stack chain =
      (chain.take (MAX_STACK_DEPTH + 1)).map (fun f => (f, f.lineno)) := h
  refine ⟨?_, hb, ?_, ?_⟩
  · rw [hb]
    simp [List.length_take]
  · have hl : (stackEntries { st with stack_frames := build_stack chain }).length
        = (build_stack chain).length := by
      simp [stackEntries]
    rw [hl, hb]
    simp [List.length_take]
  · simp [cmd_stack, getField]

theorem c9_witness :
    process_command run_fail ("locals") =
      [(("error"), JVal.s (("Command error: ") ++ ("division by zero"))),
       (("traceback"), JVal.s ("Traceback (most recent call last): ..."))] ∧
    process_command run_fail ("frobnicate") =
      [(("error"), JVal.s (("Unknown command: ") ++ ("frobnicate")))] :=
  ⟨(c9_theorem run_fail ("locals")
      { msg := ("division by zero")
        tb := ("Traceback (most recent call last): ...") }).1 rfl rfl,
   (c9_theorem run_fail ("frobnicate") { msg := (""), tb := ("") }).2 rfl⟩

/-- C4: the claim is false on the code.  Formatting the self-referential
list l = []; l.append(l) with the routine formatter yields an inner record
with value "<circular reference>" but no circular field at all: only the
deep inspector emits circular: true. -/
theorem c4_counterexample :
    format_value heapCyc 0 2 0 [] =
      [(("type"), JVal.s ("list")),
       (("value"), JVal.s ("<list with 1 items>")),
       (("items"), JVal.arr [JVal.obj
         [(("type"), JVal.s ("list")),
          (("value"), JVal.s ("<circular reference>"))]])] ∧
    getField [(("type"), JVal.s ("list")),
              (("value"), JVal.s ("<circular reference>"))] ("circular") =
      Option.none :=
  ⟨rfl, rfl⟩

/-- C4 (amended): on a re-entered value neither formatter recurses; the
deep inspector returns exactly the record with type, value
"<circular reference>" and circular: true, while the routine formatter
returns only type and value, without the circular flag, and applies its
check only at positive depth. -/
theorem c4_amended :
    (∀ (heap : Nat → PyVal) (mi md b objId : Nat) (seen : List Nat),
      objId ∈ seen →
      inspectB heap mi md b objId seen =
        [(("type"), JVal.s (pyTypeName (heap objId))),
         (("value"), JVal.s ("<circular reference>")),
         (("circular"), JVal.b true)]) ∧
    (∀ (heap : Nat → PyVal) (objId md curd : Nat) (seen : List Nat),
      objId ∈ seen → 0 < curd →
      format_value heap objId md curd seen =
        [(("type"), JVal.s (pyTypeName (heap objId))),
         (("value"), JVal.s ("<circular reference>"))]) := by
  constructor
  · intro heap mi md b objId seen h
    have hc : seen.contains objId = true := by simp [h]
    cases b with
    | zero =>
      rw [inspectB, hc]
      rfl
    | succ b =>
      rw [inspectB, hc]
      rfl
  · intro heap objId md curd seen h hcd
    have hc : (seen.contains objId && decide (0 < curd)) = true := by
      simp [h, hcd]
    rw [format_value]
    cases hbud : md - curd with
    | zero =>
      rw [formatValueB, hc]
      rfl
    | succ b =>
      rw [formatValueB, hc]
      rfl

theorem c4_witness :
    inspectB heapCyc 50 10 5 0 [0] =
      [(("type"), JVal.s ("list")),
       (("value"), JVal.s ("<circular reference>")),
       (("circular"), JVal.b true)] ∧
    format_value heapCyc 0 2 1 [0] =
      [(("type"), JVal.s ("list")),
       (("value"), JVal.s ("<circular reference>"))] :=
  ⟨c4_amended.1 heapCyc 50 10 5 0 [0] (by decide),
   c4_amended.2 heapCyc 0 2 1 [0] (by decide) (by decide)⟩

/-- C6: the claim is false on the code for the routine formatter.  Even for
the empty list formatted well within the depth budget, format_value
returns type, value and items but no length field; the element count
appears only inside the value string. -/
theorem c6_counterexample :
    format_value heapEmptyList 0 2 0 [] =
      [(("type"), JVal.s ("list")),
       (("value"), JVal.s ("<list with 0 items>")),
       (("items"), JVal.arr [])] ∧
    getField (format_value heapEmptyList 0 2 0 []) ("length") =
      Option.none :=
  ⟨rfl, rfl⟩

/-- C6 (amended): within the depth budget the records the deep inspector builds for
list, tuple, dict and set carry length equal to the element (or key) count
together with an items field, the empty collection included; the routine
formatter carries items but never a length field. -/
theorem c6_amended :
    (∀ (heap : Nat → PyVal) (mi md b objId : Nat) (seen : List Nat)
        (elems : List Nat),
      objId ∉ seen → heap objId = PyVal.list elems →
      getField (inspectB heap mi md (b + 1) objId seen) ("length") =
        some (JVal.n (Int.ofNat elems.length)) ∧
      (getField (inspectB heap mi md (b + 1) objId seen)
        ("items")).isSome = true) ∧
    (∀ (heap : Nat → PyVal) (mi md b objId : Nat) (seen : List Nat)
        (elems : List Nat),
      objId ∉ seen → heap objId = PyVal.tuple elems →
      getField (inspectB heap mi md (b + 1) objId seen) ("length") =
        some (JVal.n (Int.ofNat elems.length)) ∧
      (getField (inspectB heap mi md (b + 1) objId seen)
        ("items")).isSome = true) ∧
    (∀ (heap : Nat → PyVal) (mi md b objId : Nat) (seen : List Nat)
        (entries : List (String × Nat)),
      objId ∉ seen → heap objId = PyVal.dict entries →
      getField (inspectB heap mi md (b + 1) objId seen) ("length") =
        some (JVal.n (Int.ofNat entries.length)) ∧
      (getField (inspectB heap mi md (b + 1) objId seen)
        ("items")).isSome = true) ∧
    (∀ (heap : Nat → PyVal) (mi md b objId : Nat) (seen : List Nat)
        (elems : List Nat),
      objId ∉ seen → heap objId = PyVal.set elems →
      getField (inspectB heap mi md (b + 1) objId seen) ("length") =
        some (JVal.n (Int.ofNat elems.length)) ∧
      (getField (inspectB heap mi md (b + 1) objId seen)
        ("items")).isSome = true) ∧
    (∀ (heap : Nat → PyVal) (b objId curd : Nat) (seen : List Nat)
        (elems : List Nat),
      objId ∉ seen → heap objId = PyVal.list elems →
      getField (formatValueB heap (b + 1) objId curd seen) ("length") =
        Option.none ∧
      (getField (formatValueB heap (b + 1) objId curd seen)
        ("items")).isSome = true) := by
  refine ⟨?_, ?_, ?_, ?_, ?_⟩
  · intro heap mi md b objId seen elems h hh
    have hc : seen.contains objId = false := by simp [h]
    refine ⟨?_, ?_⟩
    · rw [inspectB, hc, if_neg (by simp), hh, inspectFull, inspectSeq]
      rfl
    · rw [inspectB, hc, if_neg (by simp), hh, inspectFull, inspectSeq]
      by_cases he : elems.length = 0
      · rw [if_pos he]
        rfl
      · rw [if_neg he]
        rfl
  · intro heap mi md b objId seen elems h hh
    have hc : seen.contains objId = false := by simp [h]
    refine ⟨?_, ?_⟩
    · rw [inspectB, hc, if_neg (by simp), hh, inspectFull, inspectSeq]
      rfl
    · rw [inspectB, hc, if_neg (by simp), hh, inspectFull, inspectSeq]
      by_cases he : elems.length = 0
      · rw [if_pos he]
        rfl
      · rw [if_neg he]
        rfl
  · intro heap mi md b objId seen entries h hh
    have hc : seen.contains objId = false := by simp [h]
    refine ⟨?_, ?_⟩
    · rw [inspectB, hc, if_neg (by simp), hh, inspectFull, inspectDict]
      rfl
    · rw [inspectB, hc, if_neg (by simp), hh, inspectFull, inspectDict]
      by_cases he : entries.length = 0
      · rw [if_pos he]
        rfl
      · rw [if_neg he]
        rfl
  · intro heap mi md b objId seen elems h hh
    have hc : seen.contains objId = false := by simp [h]
    refine ⟨?_, ?_⟩
    · rw [inspectB, hc, if_neg (by simp), hh, inspectFull, inspectSet]
      rfl
    · rw [inspectB, hc, if_neg (by simp), hh, inspectFull, inspectSet]
      by_cases he : elems.length = 0
      · rw [if_pos he]
        rfl
      · rw [if_neg he]
        rfl
  · intro heap b objId curd seen elems h hh
    have hc : (seen.contains objId && decide (0 < curd)) = false := by
      simp [h]
    refine ⟨?_, ?_⟩
    · rw [formatValueB, hc, if_neg (by simp), hh, formatValueFull]
      rfl
    · rw [formatValueB, hc, if_neg (by simp), hh, formatValueFull]
      rfl

theorem c6_witness :
    getField (inspectB heapEmptyList 50 10 3 0 []) ("length") =
      some (JVal.n 0) ∧
    (getField (inspectB heapEmptyList 50 10 3 0 []) ("items")).isSome =
      true ∧
    getField (formatValueB heapEmptyList 3 0 0 []) ("length") =
      Option.none :=
  ⟨(c6_amended.1 heapEmptyList 50 10 2 0 [] [] (by decide) rfl).1,
   (c6_amended.1 heapEmptyList 50 10 2 0 [] [] (by decide) rfl).2,
   (c6_amended.2.2.2.2 heapEmptyList 2 0 0 [] [] (by decide) rfl).1⟩

/-- C5: the claim is false on the code for the routine formatter.  A list
holding an empty list, formatted with depth bound 1, cuts the inner list
off at the bound, and the cut-off node carries only a summary value, with
no truncated flag. -/
theorem c5_counterexample :
    format_value heapNested 0 1 0 [] =
      [(("type"), JVal.s ("list")),
       (("value"), JVal.s ("<list with 1 items>")),
       (("items"), JVal.arr [JVal.obj
         [(("type"), JVal.s ("list")),
          (("value"), JVal.s ("<list with 0 items>"))]])] ∧
    getField [(("type"), JVal.s ("list")),
              (("value"), JVal.s ("<list with 0 items>"))] ("truncated") =
      Option.none :=
  ⟨rfl, rfl⟩

/-- C5 (amended): the routine formatter output nests no deeper than the
remaining depth budget (max_depth - current_depth, so max_depth from the
top-level call), but its depth-capped nodes carry no truncated flag; the
deep inspector marks its depth cutoff with truncated: true (reached at
depth > max_depth), so its output can nest up to max_depth + 1 record
levels, one more than the requested bound, and never deeper. -/
theorem c5_amended :
    (∀ (heap : Nat → PyVal) (objId md curd : Nat) (seen : List Nat),
      NestLe (md - curd) (format_value heap objId md curd seen)) ∧
    (∀ (heap : Nat → PyVal) (mi md objId : Nat) (seen : List Nat),
      objId ∉ seen →
      inspectB heap mi md 0 objId seen =
        depthExceededRecord md (heap objId)) ∧
    (∀ (md : Nat) (v : PyVal),
      getField (depthExceededRecord md v) ("truncated") =
        some (JVal.b true)) ∧
    (∀ (heap : Nat → PyVal) (mi md b objId : Nat) (seen : List Nat),
      NestLe b (inspectB heap mi md b objId seen)) ∧
    (∀ (heap : Nat → PyVal) (md mi objId : Nat),
      NestLe (md + 1) (inspect_object heap md mi objId)) := by
  refine ⟨?_, ?_, ?_, ?_, ?_⟩
  · intro heap objId md curd seen
    exact formatValueB_nest heap (md - curd) objId curd seen
  · intro heap mi md objId seen h
    have hc : seen.contains objId = false := by simp [h]
    rw [inspectB, hc, if_neg (by simp)]
  · intro md v
    rfl
  · intro heap mi md b objId seen
    exact inspectB_nest heap mi md b objId seen
  · intro heap md mi objId
    exact inspectB_nest heap mi md (md + 1) objId []

theorem c5_witness :
    NestLe 2 (format_value heapNested 0 2 0 []) ∧
    inspectB heapNested 50 10 0 5 [] =
      depthExceededRecord 10 (heapNested 5) :=
  ⟨c5_amended.1 heapNested 0 2 0 [],
   c5_amended.2.1 heapNested 50 10 5 [] (by decide)⟩
